import Mathlib

/-
Verification development for the portrait classification and PDF collage
generator (process_portraits.py).

Embedding conventions:
  * Machine floating point numbers are embedded as exact rationals (ℚ).  All
    the arithmetic performed by the program (channel averaging, page
    geometry, grid sizing) is simple enough that the float computations
    agree with the exact rational ones at every comparison the program
    makes.
  * An image is represented by the list of RGB pixels of its sampled bottom
    band (the lowest 5% strip).  The PIL decoding and cropping arithmetic is
    outside the embedding; classification consumes only those pixels.
  * The filesystem is an environment function from paths to optional pixel
    lists; `none` models an unreadable/undecodable file (PIL raising).
  * The persisted artifact `portrait_groups.json` is modelled by the
    `Groups` structure; rewriting the artifact is modelled by returning the
    updated structure.
-/

/-- Classification label: 'green', 'orange' or 'unknown' in the source. -/
inductive Label where
  | green
  | orange
  | unknown
deriving DecidableEq

/-- One RGB pixel (byte values, as natural numbers). -/
abbrev Pixel : Type := ℕ × ℕ × ℕ

/-- An image, represented by the pixel list of its sampled bottom band. -/
abbrev Img : Type := List Pixel

/-- Sum of the red channel over the band (the `r_sum` accumulator). -/
def sumR (pxs : Img) : ℕ := (pxs.map fun p => p.1).sum

/-- Sum of the green channel over the band (the `g_sum` accumulator). -/
def sumG (pxs : Img) : ℕ := (pxs.map fun p => p.2.1).sum

/-- Sum of the blue channel over the band (the `b_sum` accumulator). -/
def sumB (pxs : Img) : ℕ := (pxs.map fun p => p.2.2).sum

/-- `avg_r = r_sum / pixel_count` (exact rational division; the source
raises `ZeroDivisionError` on an empty band, so callers restrict to
nonempty bands). -/
def avgR (pxs : Img) : ℚ := (sumR pxs : ℚ) / (pxs.length : ℚ)

/-- `avg_g = g_sum / pixel_count`. -/
def avgG (pxs : Img) : ℚ := (sumG pxs : ℚ) / (pxs.length : ℚ)

/-- `avg_b = b_sum / pixel_count`. -/
def avgB (pxs : Img) : ℚ := (sumB pxs : ℚ) / (pxs.length : ℚ)

/-- The ordered rule chain of `get_bottom_color` (source lines 72-96),
exactly as nested in the source: the ambiguous branch (`|diff| < 5`) falls
through to 'unknown' when the saturation test fails. -/
def classifyRGB (avg_r avg_g avg_b : ℚ) : Label :=
  if avg_g - avg_r ≥ 5 ∧ avg_g > avg_b ∧ avg_g > 100 then Label.green
  else if avg_g - avg_r ≤ -5 ∧ avg_r > avg_b ∧ avg_r > 100 then Label.orange
  else if |avg_g - avg_r| < 5 then
    if min avg_r avg_g - avg_b > 30 then
      if avg_g ≥ avg_r - 2 then Label.green else Label.orange
    else Label.unknown
  else Label.unknown

/-- Python's `int()` conversion: truncation toward zero. -/
def pyInt (q : ℚ) : ℤ := if q < 0 then ⌈q⌉ else ⌊q⌋

/-- `get_bottom_color`: label together with the `int()`-converted channel
averages, as returned by the source (lines 79-96). -/
def get_bottom_color (pxs : Img) : Label × ℤ × ℤ × ℤ :=
  (classifyRGB (avgR pxs) (avgG pxs) (avgB pxs),
   pyInt (avgR pxs), pyInt (avgG pxs), pyInt (avgB pxs))

/-- The `stats` object of the persisted artifact. -/
structure Stats where
  green_count : ℕ
  orange_count : ℕ
  unknown_count : ℕ
  total : ℕ
deriving DecidableEq

/-- The persisted grouping artifact `portrait_groups.json`. -/
structure Groups where
  green_group : List String
  orange_group : List String
  unknown_group : List String
  stats : Stats
deriving DecidableEq

/-- The filesystem: bottom-band pixels per path; `none` = unreadable. -/
abbrev Env : Type := String → Option Img

/-- The recomputation done per orange member by `apply_auto_corrections`
(source lines 366-395): reopen the image, average the bottom band, return
`avg_g - avg_r`.  `none` models the `except` path (unreadable file, or the
`ZeroDivisionError` of an empty band), in which case the item is skipped. -/
def autoDiff (env : Env) (p : String) : Option ℚ :=
  match env p with
  | none => none
  | some pxs => if pxs.length = 0 then none else some (avgG pxs - avgR pxs)

/-- Whether an orange member is collected into `to_move`
(`if diff >= threshold`, source line 388). -/
def moveQualifies (env : Env) (t : ℚ) (p : String) : Bool :=
  match autoDiff env p with
  | some d => decide (d ≥ t)
  | none => false

/-- Python's `list.sort()` on path strings: ascending lexicographic. -/
def sortStr (l : List String) : List String :=
  l.mergeSort (fun a b => decide (a ≤ b))

/-- `apply_auto_corrections` (source lines 341-416): collect the qualifying
orange members into `to_move`; for each, `orange_group.remove` (first
occurrence) and `green_group.append`; set the counts to the new lengths;
sort both lists; rewrite the artifact (here: return it) and return the
number moved. -/
def apply_auto_corrections (env : Env) (t : ℚ) (g : Groups) : Groups × ℕ :=
  let to_move := g.orange_group.filter (moveQualifies env t)
  let orange1 := to_move.foldl (fun l p => l.erase p) g.orange_group
  let green1 := to_move.foldl (fun l p => l ++ [p]) g.green_group
  ({ green_group := sortStr green1,
     orange_group := sortStr orange1,
     unknown_group := g.unknown_group,
     stats := { green_count := green1.length,
                orange_count := orange1.length,
                unknown_count := g.stats.unknown_count,
                total := g.stats.total } },
   to_move.length)

/-- The spec's wording for which orange members the corrector moves: the
readable members whose recomputed bottom-band `avg_G - avg_R` is at least
the caller-supplied threshold. -/
def specQualifies (env : Env) (t : ℚ) (p : String) : Bool :=
  match env p with
  | some pxs => !pxs.isEmpty && decide (avgG pxs - avgR pxs ≥ t)
  | none => false

/-- One point per unit; `inch = 72.0` in the rendering library. -/
def inchPt : ℚ := 72

/-- `cm = inch / 2.54`. -/
def cmPt : ℚ := inchPt / 2.54

/-- `mm = cm * 0.1`. -/
def mmPt : ℚ := cmPt * 0.1

/-- The A4 page size `(210*mm, 297*mm)` in points. -/
def A4 : ℚ × ℚ := (210 * mmPt, 297 * mmPt)

/-- `landscape(A4)`: the A4 size with the larger dimension first. -/
def landscapeA4 : ℚ × ℚ := (297 * mmPt, 210 * mmPt)

/-- Page margin, 20 points (both planners). -/
def margin : ℚ := 20

/-- Reserved title band, 30 points (both planners). -/
def title_height : ℚ := 30

/-- Spacing between grid cells, 5 points (both planners). -/
def spacing : ℚ := 5

/-- `available_width = page_width - 2*margin`. -/
def availW (page : ℚ × ℚ) : ℚ := page.1 - 2 * margin

/-- `available_height = page_height - 2*margin - title_height`. -/
def availH (page : ℚ × ℚ) : ℚ := page.2 - 2 * margin - title_height

/-- `math.ceil(a / b)` for natural `a`, `b` (exact ceiling division). -/
def ceilDivNat (a b : ℕ) : ℕ := (a + b - 1) / b

/-- `math.ceil(math.sqrt q)` for a rational `q`: the least natural `n` with
`n^2 ≥ q`.  The source computes `ceil(sqrt N * sqrt aspect)`, and
`sqrt N * sqrt aspect = sqrt (N * aspect)` for nonnegative reals, so the
planners below call this on the product; `ceilSqrtQ_eq_ceil_sqrt` below
proves this equals the source expression exactly. -/
def ceilSqrtQ (q : ℚ) : ℕ :=
  let c := (⌈q⌉).toNat
  let s := Nat.sqrt c
  if c ≤ s * s then s else s + 1

/-- The portrait orientation-adjustment loop (source lines 200-205):
`while cols > rows: cols -= 1; if cols < 1: cols = 1; break;
rows = ceil(N / cols)`. -/
def portraitAdjust (N cols rows : ℕ) : ℕ × ℕ :=
  if h : rows < cols then
    if h2 : cols - 1 < 1 then (1, rows)
    else portraitAdjust N (cols - 1) (ceilDivNat N (cols - 1))
  else (cols, rows)
termination_by cols
decreasing_by omega

/-- The landscape adjustment loop (source lines 285-287):
`while rows > cols / 1.5: cols += 1; rows = ceil(N / cols)`.  The float
test `rows > cols / 1.5` is `3 * rows > 2 * cols` exactly (the float
rounding of `cols / 1.5` never crosses an integer `rows`, since
`|rows - 2*cols/3|` is either `0`, with `cols / 1.5` computed exactly, or
at least `1/3`, far above the rounding error). -/
def landscapeAdjust (N cols : ℕ) : ℕ × ℕ :=
  if h : 2 * cols < 3 * ceilDivNat N cols then landscapeAdjust N (cols + 1)
  else (cols, ceilDivNat N cols)
termination_by 3 * N + 3 - 2 * cols
decreasing_by
  rcases Nat.eq_zero_or_pos cols with hc | hc
  · subst hc
    simp [ceilDivNat] at h
  · have hle : ceilDivNat N cols ≤ N := by
      unfold ceilDivNat
      have hd := Nat.div_add_mod (N + cols - 1) cols
      have hm := Nat.mod_lt (N + cols - 1) hc
      by_contra hgt
      have h1 : cols * (N + 1) ≤ cols * ((N + cols - 1) / cols) :=
        Nat.mul_le_mul_left cols (by omega)
      have h2 : N ≤ cols * N := Nat.le_mul_of_pos_left N hc
      rw [Nat.mul_add, Nat.mul_one] at h1
      omega
    omega

/-- The computed grid of the portrait planner (source lines 193-205):
`cols = ceil(sqrt N * sqrt page_aspect)`, `rows = ceil(N / cols)`, then the
portrait adjustment loop. -/
def portraitGrid (N : ℕ) : ℕ × ℕ :=
  let cols := ceilSqrtQ ((N : ℚ) * (availW A4 / availH A4))
  portraitAdjust N cols (ceilDivNat N cols)

/-- The computed grid of the landscape planner (source lines 277-287). -/
def landscapeGrid (N : ℕ) : ℕ × ℕ :=
  landscapeAdjust N (ceilSqrtQ ((N : ℚ) * (availW landscapeA4 / availH landscapeA4)))

/-- The layout derived per render call: grid shape and cell size. -/
structure Layout where
  cols : ℕ
  rows : ℕ
  img_width : ℚ
  img_height : ℚ
deriving DecidableEq

/-- `create_collage_pdf_portrait` layout computation (source lines
184-219).  The image list enters only through its length `N` and the first
image's height/width ratio `aspect`.  Cell width from the width constraint,
cell height from the sample aspect ratio, then the height-constrained
fallback recomputation when the grid would overflow the printable height. -/
def create_collage_pdf_portrait (N : ℕ) (aspect : ℚ) : Layout :=
  let cols := (portraitGrid N).1
  let rows := (portraitGrid N).2
  let img_width := (availW A4 - ((cols : ℚ) - 1) * spacing) / (cols : ℚ)
  let img_height := img_width * aspect
  if img_height * (rows : ℚ) + ((rows : ℚ) - 1) * spacing > availH A4 then
    let h := (availH A4 - ((rows : ℚ) - 1) * spacing) / (rows : ℚ)
    ⟨cols, rows, h / aspect, h⟩
  else ⟨cols, rows, img_width, img_height⟩

/-- `create_collage_pdf_landscape` layout computation (source lines
263-304), same shape as the portrait one on the rotated page. -/
def create_collage_pdf_landscape (N : ℕ) (aspect : ℚ) : Layout :=
  let cols := (landscapeGrid N).1
  let rows := (landscapeGrid N).2
  let img_width := (availW landscapeA4 - ((cols : ℚ) - 1) * spacing) / (cols : ℚ)
  let img_height := img_width * aspect
  if img_height * (rows : ℚ) + ((rows : ℚ) - 1) * spacing > availH landscapeA4 then
    let h := (availH landscapeA4 - ((rows : ℚ) - 1) * spacing) / (rows : ℚ)
    ⟨cols, rows, h / aspect, h⟩
  else ⟨cols, rows, img_width, img_height⟩

/-- Number of PDF pages a planner call produces: an empty image list
returns early without writing a file (source lines 180-182, 259-261);
otherwise exactly one `showPage`/`save` (source lines 245-246, 336-337). -/
def pdfPageCount (image_paths : List String) : ℕ :=
  if image_paths.isEmpty then 0 else 1

/-- Fuel-indexed run of the landscape adjustment loop: `none` means the
loop was still running after `fuel` iterations.  Used to state that the
loop terminates. -/
def landscapeLoopFuel (N : ℕ) : ℕ → ℕ → Option (ℕ × ℕ)
  | 0, cols =>
    if 2 * cols < 3 * ceilDivNat N cols then none
    else some (cols, ceilDivNat N cols)
  | fuel + 1, cols =>
    if 2 * cols < 3 * ceilDivNat N cols then landscapeLoopFuel N fuel (cols + 1)
    else some (cols, ceilDivNat N cols)

/-- What `main` observes about one batch: whether the year directory
exists, how many PNG files it holds, and whether the grouping artifact can
be read when the correction pass opens it (source line 356 opens it with no
handler; `false` models that open raising). -/
structure BatchEnv where
  dirFound : Bool
  pngCount : ℕ
  artifactOk : Bool
deriving DecidableEq

/-- Outcome of one requested batch in a run. -/
inductive BatchOutcome where
  | skippedMissingDir
  | skippedNoPngs
  | processed
  | raised
deriving DecidableEq

/-- Whether `process_year` completes for a batch: with the correction pass
enabled it opens the grouping artifact unguarded, so an unreadable artifact
raises out of `process_year`. -/
def processYearOk (autoCorrect : Bool) (b : BatchEnv) : Bool :=
  !autoCorrect || b.artifactOk

/-- The batch loop of `main` (source lines 560-579): a missing directory or
an empty PNG listing is skipped with `continue`; `process_year` is called
with no surrounding handler, so an exception raised inside it terminates
the whole loop (no later batch runs). -/
def runBatches (autoCorrect : Bool) : List BatchEnv → List BatchOutcome
  | [] => []
  | b :: rest =>
    if !b.dirFound then BatchOutcome.skippedMissingDir :: runBatches autoCorrect rest
    else if b.pngCount = 0 then BatchOutcome.skippedNoPngs :: runBatches autoCorrect rest
    else if processYearOk autoCorrect b then
      BatchOutcome.processed :: runBatches autoCorrect rest
    else [BatchOutcome.raised]

/-- Environment with no readable files, used by concrete witnesses. -/
def envNone : Env := fun _ => none

/-- A small concrete artifact used by concrete witnesses. -/
def gSample : Groups :=
  { green_group := ["g1"], orange_group := ["o1"], unknown_group := ["u1"],
    stats := { green_count := 1, orange_count := 1, unknown_count := 1, total := 3 } }

/-- Ceiling division bound: `ceil(N / c) ≤ N` when `c ≥ 1`. -/
theorem ceilDivNat_le (N c : ℕ) (hc : 1 ≤ c) : ceilDivNat N c ≤ N := by
  unfold ceilDivNat
  have hd := Nat.div_add_mod (N + c - 1) c
  have hm := Nat.mod_lt (N + c - 1) hc
  by_contra hgt
  have h1 : c * (N + 1) ≤ c * ((N + c - 1) / c) :=
    Nat.mul_le_mul_left c (by omega)
  have h2 : N ≤ c * N := Nat.le_mul_of_pos_left N hc
  rw [Nat.mul_add, Nat.mul_one] at h1
  omega

/-- Ceiling division of a positive numerator is positive. -/
theorem ceilDivNat_pos (N c : ℕ) (hN : 1 ≤ N) (hc : 1 ≤ c) : 1 ≤ ceilDivNat N c := by
  unfold ceilDivNat
  rw [Nat.one_le_div_iff hc]
  omega

/-- The defining property of ceiling division: `c` columns and
`ceil(N / c)` rows hold at least `N` items. -/
theorem le_mul_ceilDivNat (N c : ℕ) (hc : 1 ≤ c) : N ≤ c * ceilDivNat N c := by
  unfold ceilDivNat
  have hd := Nat.div_add_mod (N + c - 1) c
  have hm := Nat.mod_lt (N + c - 1) hc
  omega

/-- `ceilSqrtQ` of a positive rational is at least 1. -/
theorem ceilSqrtQ_pos (q : ℚ) (hq : 0 < q) : 1 ≤ ceilSqrtQ q := by
  simp only [ceilSqrtQ]
  have h1 : (0:ℤ) < ⌈q⌉ := Int.ceil_pos.mpr hq
  have hc : 1 ≤ (⌈q⌉).toNat := by omega
  split
  · rename_i hle
    rcases Nat.eq_zero_or_pos (Nat.sqrt (⌈q⌉).toNat) with h0 | hpos
    · rw [h0] at hle
      omega
    · exact hpos
  · omega

/-- Upper property of `ceilSqrtQ`: its square dominates the argument. -/
theorem ceilSqrtQ_le_sq (q : ℚ) : q ≤ ((ceilSqrtQ q : ℕ) : ℚ) ^ 2 := by
  simp only [ceilSqrtQ]
  rcases le_or_lt q 0 with hq | hq
  · exact hq.trans (by positivity)
  · have hq0 : (0:ℤ) ≤ ⌈q⌉ := Int.ceil_nonneg hq.le
    have hqc : q ≤ (((⌈q⌉).toNat : ℕ) : ℚ) := by
      have h1 : ((⌈q⌉).toNat : ℤ) = ⌈q⌉ := Int.toNat_of_nonneg hq0
      have h2 := Int.le_ceil q
      rw [← h1] at h2
      exact_mod_cast h2
    split
    · rename_i hle
      have : (((⌈q⌉).toNat : ℕ) : ℚ) ≤ ((Nat.sqrt (⌈q⌉).toNat : ℕ) : ℚ) ^ 2 := by
        rw [pow_two]
        exact_mod_cast hle
      linarith
    · rename_i hgt
      have hlt := Nat.lt_succ_sqrt (⌈q⌉).toNat
      have : (((⌈q⌉).toNat : ℕ) : ℚ) ≤ ((Nat.sqrt (⌈q⌉).toNat + 1 : ℕ) : ℚ) ^ 2 := by
        rw [pow_two]
        exact_mod_cast Nat.le_of_lt hlt
      push_cast at this ⊢
      linarith

/-- Minimality of `ceilSqrtQ`: it is the least natural whose square
dominates the argument. -/
theorem ceilSqrtQ_min (q : ℚ) (m : ℕ) (h : q ≤ (m:ℚ)^2) : ceilSqrtQ q ≤ m := by
  simp only [ceilSqrtQ]
  have hcm : (⌈q⌉).toNat ≤ m * m := by
    have h1 : ⌈q⌉ ≤ ((m*m : ℕ) : ℤ) := Int.ceil_le.mpr (by rw [pow_two] at h; exact_mod_cast h)
    exact Int.toNat_le.mpr h1
  split
  · rename_i hle
    have hs := Nat.sqrt_le_sqrt hcm
    rwa [Nat.sqrt_eq] at hs
  · rename_i hgt
    have hlt : Nat.sqrt (⌈q⌉).toNat * Nat.sqrt (⌈q⌉).toNat < (⌈q⌉).toNat := by omega
    have hsm : Nat.sqrt (⌈q⌉).toNat < m := by
      by_contra hms
      push_neg at hms
      have := Nat.mul_le_mul hms hms
      omega
    omega

/-- `sortStr` output is sorted in the lexicographic string order. -/
theorem sortStr_sorted (l : List String) : List.Sorted (· ≤ ·) (sortStr l) := by
  have h := @List.sorted_mergeSort String (fun a b : String => decide (a ≤ b))
    (fun a b c hab hbc => by
      simp only [decide_eq_true_eq] at *
      exact le_trans hab hbc)
    (fun a b => by
      simp only [Bool.or_eq_true, decide_eq_true_eq]
      exact le_total a b) l
  unfold sortStr
  refine List.Pairwise.imp ?_ h
  intro a b hab
  simpa using hab

/-- `sortStr` permutes its input. -/
theorem sortStr_perm (l : List String) : (sortStr l).Perm l :=
  List.mergeSort_perm l _

/-- `sortStr` preserves length. -/
theorem sortStr_length (l : List String) : (sortStr l).length = l.length :=
  List.length_mergeSort l

/-- Membership is invariant under `sortStr`. -/
theorem mem_sortStr {a : String} {l : List String} : a ∈ sortStr l ↔ a ∈ l :=
  List.mem_mergeSort

/-- Sorting an already sorted list leaves it unchanged. -/
theorem sortStr_eq_self (l : List String) (h : List.Sorted (· ≤ ·) l) : sortStr l = l :=
  List.eq_of_perm_of_sorted (sortStr_perm l) (sortStr_sorted l) h

/-- Appending elements one at a time is list concatenation. -/
theorem foldl_append_eq (g ms : List String) :
    ms.foldl (fun l p => l ++ [p]) g = g ++ ms := by
  induction ms generalizing g with
  | nil => simp
  | cons m ms ih => simp [ih]

/-- Erasing elements that all differ from the head leaves the head. -/
theorem foldl_erase_cons (xs ms : List String) (a : String) (q : String → Bool)
    (hq : ∀ b ∈ ms, q b = true) (ha : q a = false) :
    ms.foldl (fun l p => l.erase p) (a :: xs) =
      a :: ms.foldl (fun l p => l.erase p) xs := by
  induction ms generalizing xs with
  | nil => rfl
  | cons m ms ih =>
    have hm : q m = true := hq m (List.mem_cons_self m ms)
    have hne : (a == m) = false := by
      refine beq_eq_false_iff_ne.mpr ?_
      intro hcontra
      rw [hcontra, hm] at ha
      cases ha
    simp only [List.foldl_cons, List.erase_cons, hne]
    exact ih (xs.erase m) (fun b hb => hq b (List.mem_cons_of_mem m hb))

/-- Erasing, one at a time, exactly the members selected by `q` from the
list they were selected from leaves the members rejected by `q`. -/
theorem foldl_erase_filter (q : String → Bool) (l : List String) :
    (l.filter q).foldl (fun acc p => acc.erase p) l = l.filter (fun a => !q a) := by
  induction l with
  | nil => rfl
  | cons a l ih =>
    by_cases hqa : q a = true
    · rw [List.filter_cons_of_pos hqa]
      simp only [List.foldl_cons, List.erase_cons_head]
      rw [List.filter_cons_of_neg (by simp [hqa]), ih]
    · have hqa' : q a = false := by simpa using hqa
      rw [List.filter_cons_of_neg (by simp [hqa'])]
      rw [foldl_erase_cons l (l.filter q) a q (fun b hb => List.of_mem_filter hb) hqa']
      rw [ih, List.filter_cons_of_pos (by simp [hqa'])]

/-- The lengths of the `q`-selected and `q`-rejected sublists add up. -/
theorem length_filter_add_length_filter_not (q : String → Bool) (l : List String) :
    (l.filter q).length + (l.filter fun a => !q a).length = l.length := by
  induction l with
  | nil => rfl
  | cons a l ih =>
    by_cases hqa : q a = true
    · rw [List.filter_cons_of_pos hqa, List.filter_cons_of_neg (by simp [hqa])]
      simp only [List.length_cons]
      omega
    · have hqa' : q a = false := by simpa using hqa
      rw [List.filter_cons_of_neg (by simp [hqa']), List.filter_cons_of_pos (by simp [hqa'])]
      simp only [List.length_cons]
      omega

/-- Closed form of `apply_auto_corrections`: the removal loop keeps exactly
the non-qualifying orange members, the append loop concatenates the
qualifying ones onto the green list, and both lists are then sorted. -/
theorem apply_auto_corrections_eq (env : Env) (t : ℚ) (g : Groups) :
    apply_auto_corrections env t g =
      ({ green_group :=
           sortStr (g.green_group ++ g.orange_group.filter (moveQualifies env t)),
         orange_group :=
           sortStr (g.orange_group.filter fun p => !moveQualifies env t p),
         unknown_group := g.unknown_group,
         stats := { green_count :=
                      g.green_group.length +
                        (g.orange_group.filter (moveQualifies env t)).length,
                    orange_count :=
                      (g.orange_group.filter fun p => !moveQualifies env t p).length,
                    unknown_count := g.stats.unknown_count,
                    total := g.stats.total } },
       (g.orange_group.filter (moveQualifies env t)).length) := by
  simp only [apply_auto_corrections]
  rw [foldl_erase_filter, foldl_append_eq, List.length_append]

/-- The source's `to_move` test agrees with the spec's wording. -/
theorem moveQualifies_eq_specQualifies (env : Env) (t : ℚ) :
    moveQualifies env t = specQualifies env t := by
  funext p
  unfold moveQualifies specQualifies autoDiff
  cases henv : env p with
  | none => rfl
  | some pxs =>
    by_cases hlen : pxs.length = 0
    · have : pxs = [] := List.length_eq_zero.mp hlen
      subst this
      simp
    · have : pxs ≠ [] := fun hcontra => hlen (by simp [hcontra])
      simp [hlen, List.isEmpty_iff, this]

/-- Invariant of the portrait adjustment loop: starting from at least one
column with `rows = ceil(N / cols)`, it ends with at least one column,
`rows = ceil(N / cols)` still holding, and `cols ≤ rows`. -/
theorem portraitAdjust_spec (N : ℕ) (hN : 1 ≤ N) : ∀ cols rows : ℕ,
    1 ≤ cols → rows = ceilDivNat N cols →
      1 ≤ (portraitAdjust N cols rows).1 ∧
      (portraitAdjust N cols rows).2 = ceilDivNat N (portraitAdjust N cols rows).1 ∧
      (portraitAdjust N cols rows).1 ≤ (portraitAdjust N cols rows).2 := by
  refine portraitAdjust.induct N
    (fun cols rows =>
      1 ≤ cols → rows = ceilDivNat N cols →
        1 ≤ (portraitAdjust N cols rows).1 ∧
        (portraitAdjust N cols rows).2 = ceilDivNat N (portraitAdjust N cols rows).1 ∧
        (portraitAdjust N cols rows).1 ≤ (portraitAdjust N cols rows).2)
    ?_ ?_ ?_
  · intro cols rows h1 h2 hc hr
    exfalso
    have := ceilDivNat_pos N cols hN hc
    omega
  · intro cols rows h1 h2 ih hc hr
    rw [portraitAdjust, dif_pos h1, dif_neg h2]
    exact ih (by omega) rfl
  · intro cols rows h1 hc hr
    rw [portraitAdjust, dif_neg h1]
    exact ⟨hc, hr, by omega⟩

/-- Invariant of the landscape adjustment loop: starting from at least one
column it ends with at least one column and `rows = ceil(N / cols)`. -/
theorem landscapeAdjust_spec (N : ℕ) : ∀ cols : ℕ,
    1 ≤ cols →
      1 ≤ (landscapeAdjust N cols).1 ∧
      (landscapeAdjust N cols).2 = ceilDivNat N (landscapeAdjust N cols).1 := by
  refine landscapeAdjust.induct N
    (fun cols =>
      1 ≤ cols →
        1 ≤ (landscapeAdjust N cols).1 ∧
        (landscapeAdjust N cols).2 = ceilDivNat N (landscapeAdjust N cols).1)
    ?_ ?_
  · intro cols hguard ih hc
    rw [landscapeAdjust, dif_pos hguard]
    exact ih (by omega)
  · intro cols hguard hc
    rw [landscapeAdjust, dif_neg hguard]
    exact ⟨hc, rfl⟩

/-- The portrait page aspect argument is positive for `N ≥ 1`. -/
theorem aspect_portrait_pos (N : ℕ) (hN : 1 ≤ N) :
    0 < (N : ℚ) * (availW A4 / availH A4) := by
  have h1 : (0:ℚ) < (N:ℚ) := by exact_mod_cast hN
  have h2 : (0:ℚ) < availW A4 / availH A4 := by
    norm_num [availW, availH, A4, mmPt, cmPt, inchPt, margin, title_height]
  exact mul_pos h1 h2

/-- The landscape page aspect argument is positive for `N ≥ 1`. -/
theorem aspect_landscape_pos (N : ℕ) (hN : 1 ≤ N) :
    0 < (N : ℚ) * (availW landscapeA4 / availH landscapeA4) := by
  have h1 : (0:ℚ) < (N:ℚ) := by exact_mod_cast hN
  have h2 : (0:ℚ) < availW landscapeA4 / availH landscapeA4 := by
    norm_num [availW, availH, landscapeA4, mmPt, cmPt, inchPt, margin, title_height]
  exact mul_pos h1 h2

/-- The portrait grid has at least one column, `rows = ceil(N / cols)`, and
is never wider than tall. -/
theorem portraitGrid_spec (N : ℕ) (hN : 1 ≤ N) :
    1 ≤ (portraitGrid N).1 ∧
    (portraitGrid N).2 = ceilDivNat N (portraitGrid N).1 ∧
    (portraitGrid N).1 ≤ (portraitGrid N).2 := by
  simp only [portraitGrid]
  exact portraitAdjust_spec N hN _ _
    (ceilSqrtQ_pos _ (aspect_portrait_pos N hN)) rfl

/-- The landscape grid has at least one column and `rows = ceil(N / cols)`. -/
theorem landscapeGrid_spec (N : ℕ) (hN : 1 ≤ N) :
    1 ≤ (landscapeGrid N).1 ∧
    (landscapeGrid N).2 = ceilDivNat N (landscapeGrid N).1 := by
  simp only [landscapeGrid]
  exact landscapeAdjust_spec N _
    (ceilSqrtQ_pos _ (aspect_landscape_pos N hN))

/-- The portrait layout carries exactly the portrait grid. -/
theorem portrait_layout_grid (N : ℕ) (aspect : ℚ) :
    (create_collage_pdf_portrait N aspect).cols = (portraitGrid N).1 ∧
    (create_collage_pdf_portrait N aspect).rows = (portraitGrid N).2 := by
  simp only [create_collage_pdf_portrait]
  split <;> exact ⟨rfl, rfl⟩

/-- The landscape layout carries exactly the landscape grid. -/
theorem landscape_layout_grid (N : ℕ) (aspect : ℚ) :
    (create_collage_pdf_landscape N aspect).cols = (landscapeGrid N).1 ∧
    (create_collage_pdf_landscape N aspect).rows = (landscapeGrid N).2 := by
  simp only [create_collage_pdf_landscape]
  split <;> exact ⟨rfl, rfl⟩

/-- The cell height selected by the width computation plus the
height-constrained fallback always fits the printable height. -/
theorem fit_of_planner (H : ℚ) (rows : ℕ) (hr : 1 ≤ rows) (imgH : ℚ) :
    (if imgH * (rows:ℚ) + ((rows:ℚ) - 1) * spacing > H
      then (H - ((rows:ℚ) - 1) * spacing) / (rows:ℚ)
      else imgH) * (rows:ℚ) + ((rows:ℚ) - 1) * spacing ≤ H := by
  have hr0 : ((rows:ℚ)) ≠ 0 := Nat.cast_ne_zero.mpr (by omega)
  split
  · rw [div_mul_cancel₀ _ hr0]
    linarith
  · rename_i h
    push_neg at h
    exact h

/-- The portrait layout's cell height in closed form. -/
theorem portrait_img_height (N : ℕ) (aspect : ℚ) :
    (create_collage_pdf_portrait N aspect).img_height =
      (if ((availW A4 - (((portraitGrid N).1 : ℚ) - 1) * spacing) / ((portraitGrid N).1 : ℚ)) *
            aspect * (((portraitGrid N).2 : ℚ)) + (((portraitGrid N).2 : ℚ) - 1) * spacing >
            availH A4
        then (availH A4 - (((portraitGrid N).2 : ℚ) - 1) * spacing) / ((portraitGrid N).2 : ℚ)
        else ((availW A4 - (((portraitGrid N).1 : ℚ) - 1) * spacing) / ((portraitGrid N).1 : ℚ)) *
            aspect) := by
  simp only [create_collage_pdf_portrait]
  split <;> rfl

/-- The landscape layout's cell height in closed form. -/
theorem landscape_img_height (N : ℕ) (aspect : ℚ) :
    (create_collage_pdf_landscape N aspect).img_height =
      (if ((availW landscapeA4 - (((landscapeGrid N).1 : ℚ) - 1) * spacing) / ((landscapeGrid N).1 : ℚ)) *
            aspect * (((landscapeGrid N).2 : ℚ)) + (((landscapeGrid N).2 : ℚ) - 1) * spacing >
            availH landscapeA4
        then (availH landscapeA4 - (((landscapeGrid N).2 : ℚ) - 1) * spacing) / ((landscapeGrid N).2 : ℚ)
        else ((availW landscapeA4 - (((landscapeGrid N).1 : ℚ) - 1) * spacing) / ((landscapeGrid N).1 : ℚ)) *
            aspect) := by
  simp only [create_collage_pdf_landscape]
  split <;> rfl

/-- One step of the landscape loop while its guard holds. -/
theorem landscapeAdjust_step (N cols : ℕ) (h : 2 * cols < 3 * ceilDivNat N cols) :
    landscapeAdjust N cols = landscapeAdjust N (cols + 1) := by
  conv_lhs => rw [landscapeAdjust]
  rw [dif_pos h]

/-- With fuel at least `(3*N - 2*cols) / 2` the fuel-indexed landscape loop
halts, and it halts at the value of the loop function. -/
theorem landscapeLoopFuel_eq (N : ℕ) :
    ∀ fuel cols, 1 ≤ cols → 3 * N ≤ 2 * (fuel + cols) →
      landscapeLoopFuel N fuel cols = some (landscapeAdjust N cols) := by
  intro fuel
  induction fuel with
  | zero =>
    intro cols hc hf
    have hle := ceilDivNat_le N cols hc
    have hng : ¬ (2 * cols < 3 * ceilDivNat N cols) := by omega
    simp only [landscapeLoopFuel]
    rw [if_neg hng, landscapeAdjust, dif_neg hng]
  | succ f ih =>
    intro cols hc hf
    by_cases hg : 2 * cols < 3 * ceilDivNat N cols
    · simp only [landscapeLoopFuel]
      rw [if_pos hg, ih (cols + 1) (by omega) (by omega), landscapeAdjust_step N cols hg]
    · simp only [landscapeLoopFuel]
      rw [if_neg hg, landscapeAdjust, dif_neg hg]

/-- Faithfulness of `ceilSqrtQ` to the source expression
`math.ceil(math.sqrt a * math.sqrt b)` read over the reals. -/
theorem ceilSqrtQ_eq_ceil_sqrt (a b : ℚ) (ha : 0 ≤ a) :
    (ceilSqrtQ (a * b) : ℤ) = ⌈Real.sqrt ((a:ℝ)) * Real.sqrt ((b:ℝ))⌉ := by
  rw [← Real.sqrt_mul (by exact_mod_cast ha) ((b : ℝ))]
  have hcast : ((a:ℝ)) * ((b:ℝ)) = (((a * b : ℚ) : ℝ)) := by push_cast; ring
  rw [hcast]
  set q : ℚ := a * b with hqdef
  symm
  rw [Int.ceil_eq_iff]
  constructor
  · rcases Nat.eq_zero_or_pos (ceilSqrtQ q) with h0 | h1
    · rw [h0]
      push_cast
      have := Real.sqrt_nonneg ((q:ℝ))
      linarith
    · by_contra hcon
      push_neg at hcon
      have hn1 : (((ceilSqrtQ q - 1 : ℕ)) : ℝ) = ((ceilSqrtQ q : ℕ) : ℝ) - 1 := by
        push_cast [h1]
        ring
      have hle : ((q:ℝ)) ≤ (((ceilSqrtQ q - 1 : ℕ)) : ℝ) ^ 2 := by
        rw [hn1]
        have h2 := (Real.sqrt_le_iff.mp (by exact_mod_cast hcon)).2
        exact_mod_cast h2
      have hleq : q ≤ (((ceilSqrtQ q - 1 : ℕ)) : ℚ) ^ 2 := by exact_mod_cast hle
      have := ceilSqrtQ_min q (ceilSqrtQ q - 1) hleq
      omega
  · exact Real.sqrt_le_iff.mpr ⟨by positivity, by exact_mod_cast ceilSqrtQ_le_sq q⟩

/-- C1: for every bottom-band average channel triple, the classifier
returns the label of the ordered rule chain: GREEN if `G-R ≥ 5`, `G > B`,
`G > 100`; else ORANGE if `G-R ≤ -5`, `R > B`, `R > 100`; else, if
`|G-R| < 5` and `min(R,G)-B > 30`, GREEN when `G ≥ R-2` and ORANGE
otherwise; and UNKNOWN for every remaining combination. -/
theorem C1_classifier_rule_chain (r g b : ℚ) :
    classifyRGB r g b =
      (if g - r ≥ 5 ∧ g > b ∧ g > 100 then Label.green
       else if g - r ≤ -5 ∧ r > b ∧ r > 100 then Label.orange
       else if |g - r| < 5 ∧ min r g - b > 30 then
         (if g ≥ r - 2 then Label.green else Label.orange)
       else Label.unknown) := by
  unfold classifyRGB
  split_ifs <;> first | rfl | tauto

/-- C2: for every N ≥ 1 and sample aspect ratio, in both orientations the
planned grid holds all N images (`cols * rows ≥ N`) and the final cell
height times rows plus `(rows-1)*spacing` is at most the printable height,
including when the height-constrained fallback recomputation fires. -/
theorem C2_grid_capacity_and_fit (N : ℕ) (hN : 1 ≤ N) (aspect : ℚ) :
    (N ≤ (create_collage_pdf_portrait N aspect).cols * (create_collage_pdf_portrait N aspect).rows ∧
      (create_collage_pdf_portrait N aspect).img_height *
          ((create_collage_pdf_portrait N aspect).rows : ℚ) +
        (((create_collage_pdf_portrait N aspect).rows : ℚ) - 1) * spacing ≤ availH A4) ∧
    (N ≤ (create_collage_pdf_landscape N aspect).cols * (create_collage_pdf_landscape N aspect).rows ∧
      (create_collage_pdf_landscape N aspect).img_height *
          ((create_collage_pdf_landscape N aspect).rows : ℚ) +
        (((create_collage_pdf_landscape N aspect).rows : ℚ) - 1) * spacing ≤ availH landscapeA4) := by
  obtain ⟨hpc, hpr⟩ := portrait_layout_grid N aspect
  obtain ⟨hp1, hp2, hp3⟩ := portraitGrid_spec N hN
  obtain ⟨hlc, hlr⟩ := landscape_layout_grid N aspect
  obtain ⟨hl1, hl2⟩ := landscapeGrid_spec N hN
  have hpr1 : 1 ≤ (portraitGrid N).2 := by
    rw [hp2]
    exact ceilDivNat_pos N _ hN hp1
  have hlr1 : 1 ≤ (landscapeGrid N).2 := by
    rw [hl2]
    exact ceilDivNat_pos N _ hN hl1
  refine ⟨⟨?_, ?_⟩, ?_, ?_⟩
  · rw [hpc, hpr, hp2]
    exact le_mul_ceilDivNat N _ hp1
  · rw [portrait_img_height, hpr]
    exact fit_of_planner (availH A4) (portraitGrid N).2 hpr1 _
  · rw [hlc, hlr, hl2]
    exact le_mul_ceilDivNat N _ hl1
  · rw [landscape_img_height, hlr]
    exact fit_of_planner (availH landscapeA4) (landscapeGrid N).2 hlr1 _

/-- Witness for C2, at N = 3 with sample aspect ratio 4/3. -/
theorem C2_grid_capacity_and_fit_w :
    1 ≤ 3 ∧
    ((3 ≤ (create_collage_pdf_portrait 3 (4/3)).cols * (create_collage_pdf_portrait 3 (4/3)).rows ∧
      (create_collage_pdf_portrait 3 (4/3)).img_height *
          ((create_collage_pdf_portrait 3 (4/3)).rows : ℚ) +
        (((create_collage_pdf_portrait 3 (4/3)).rows : ℚ) - 1) * spacing ≤ availH A4) ∧
    (3 ≤ (create_collage_pdf_landscape 3 (4/3)).cols * (create_collage_pdf_landscape 3 (4/3)).rows ∧
      (create_collage_pdf_landscape 3 (4/3)).img_height *
          ((create_collage_pdf_landscape 3 (4/3)).rows : ℚ) +
        (((create_collage_pdf_landscape 3 (4/3)).rows : ℚ) - 1) * spacing ≤ availH landscapeA4)) :=
  ⟨by decide, C2_grid_capacity_and_fit 3 (by decide) (4/3)⟩

/-- C9: for every N ≥ 1, the portrait planner's adjustment loop ends with
`cols ≤ rows`: the final portrait grid is never wider than it is tall. -/
theorem C9_portrait_never_wider (N : ℕ) (hN : 1 ≤ N) (aspect : ℚ) :
    (create_collage_pdf_portrait N aspect).cols ≤ (create_collage_pdf_portrait N aspect).rows := by
  obtain ⟨hpc, hpr⟩ := portrait_layout_grid N aspect
  obtain ⟨_, _, hp3⟩ := portraitGrid_spec N hN
  rw [hpc, hpr]
  exact hp3

/-- Witness for C9 at N = 1. -/
theorem C9_portrait_never_wider_w :
    1 ≤ 1 ∧
    (create_collage_pdf_portrait 1 (5/7)).cols ≤ (create_collage_pdf_portrait 1 (5/7)).rows :=
  ⟨by decide, C9_portrait_never_wider 1 (by decide) (5/7)⟩

/-- C10: for every N ≥ 1, the landscape adjustment loop (while
`rows > cols / 1.5`, increment `cols`, recompute `rows = ceil(N/cols)`)
terminates: run with fuel from the planner's initial column count it
reaches the loop exit, at the planner's final grid. -/
theorem C10_landscape_loop_terminates (N : ℕ) (hN : 1 ≤ N) :
    ∃ fuel, landscapeLoopFuel N fuel
        (ceilSqrtQ ((N : ℚ) * (availW landscapeA4 / availH landscapeA4))) =
      some (landscapeGrid N) := by
  refine ⟨2 * N, ?_⟩
  have hc := ceilSqrtQ_pos _ (aspect_landscape_pos N hN)
  simp only [landscapeGrid]
  exact landscapeLoopFuel_eq N (2 * N) _ hc (by omega)

/-- Witness for C10 at N = 1. -/
theorem C10_landscape_loop_terminates_w :
    1 ≤ 1 ∧
    ∃ fuel, landscapeLoopFuel 1 fuel
        (ceilSqrtQ ((1 : ℚ) * (availW landscapeA4 / availH landscapeA4))) =
      some (landscapeGrid 1) :=
  ⟨by decide, C10_landscape_loop_terminates 1 (by decide)⟩

/-- C3: the corrector only moves items from ORANGE to GREEN (every old
green member stays green, every new green member comes from the old green
or orange collections, the new orange collection is a subcollection of the
old one), leaves UNKNOWN unchanged, and preserves
`green_count + orange_count + unknown_count = total`. -/
theorem C3_corrector_one_directional (env : Env) (t : ℚ) (g : Groups)
    (hg : g.stats.green_count = g.green_group.length)
    (ho : g.stats.orange_count = g.orange_group.length)
    (htot : g.stats.green_count + g.stats.orange_count + g.stats.unknown_count =
      g.stats.total) :
    (apply_auto_corrections env t g).1.unknown_group = g.unknown_group ∧
    (∀ p, p ∈ g.green_group → p ∈ (apply_auto_corrections env t g).1.green_group) ∧
    (∀ p, p ∈ (apply_auto_corrections env t g).1.green_group →
      p ∈ g.green_group ∨ p ∈ g.orange_group) ∧
    (∀ p, p ∈ (apply_auto_corrections env t g).1.orange_group → p ∈ g.orange_group) ∧
    (apply_auto_corrections env t g).1.stats.green_count +
        (apply_auto_corrections env t g).1.stats.orange_count +
        (apply_auto_corrections env t g).1.stats.unknown_count =
      (apply_auto_corrections env t g).1.stats.total := by
  rw [apply_auto_corrections_eq]
  refine ⟨rfl, ?_, ?_, ?_, ?_⟩
  · intro p hp
    exact mem_sortStr.mpr (List.mem_append.mpr (Or.inl hp))
  · intro p hp
    rcases List.mem_append.mp (mem_sortStr.mp hp) with h | h
    · exact Or.inl h
    · exact Or.inr (List.mem_filter.mp h).1
  · intro p hp
    exact (List.mem_filter.mp (mem_sortStr.mp hp)).1
  · have hpart := length_filter_add_length_filter_not (moveQualifies env t) g.orange_group
    dsimp only
    omega

/-- Witness for C3 on a concrete artifact with consistent counts. -/
theorem C3_corrector_one_directional_w :
    (gSample.stats.green_count = gSample.green_group.length ∧
      gSample.stats.orange_count = gSample.orange_group.length ∧
      gSample.stats.green_count + gSample.stats.orange_count + gSample.stats.unknown_count =
        gSample.stats.total) ∧
    ((apply_auto_corrections envNone 0 gSample).1.unknown_group = gSample.unknown_group ∧
      (∀ p, p ∈ gSample.green_group →
        p ∈ (apply_auto_corrections envNone 0 gSample).1.green_group) ∧
      (∀ p, p ∈ (apply_auto_corrections envNone 0 gSample).1.green_group →
        p ∈ gSample.green_group ∨ p ∈ gSample.orange_group) ∧
      (∀ p, p ∈ (apply_auto_corrections envNone 0 gSample).1.orange_group →
        p ∈ gSample.orange_group) ∧
      (apply_auto_corrections envNone 0 gSample).1.stats.green_count +
          (apply_auto_corrections envNone 0 gSample).1.stats.orange_count +
          (apply_auto_corrections envNone 0 gSample).1.stats.unknown_count =
        (apply_auto_corrections envNone 0 gSample).1.stats.total) :=
  ⟨⟨rfl, rfl, rfl⟩, C3_corrector_one_directional envNone 0 gSample rfl rfl rfl⟩

/-- C4: running the corrector a second time with the same environment and
threshold moves zero items and leaves the artifact exactly unchanged. -/
theorem C4_corrector_idempotent (env : Env) (t : ℚ) (g : Groups) :
    apply_auto_corrections env t (apply_auto_corrections env t g).1 =
      ((apply_auto_corrections env t g).1, 0) := by
  rw [apply_auto_corrections_eq env t g]
  dsimp only
  have horanges :
      ∀ p ∈ sortStr (g.orange_group.filter fun x => !moveQualifies env t x),
        moveQualifies env t p = false := by
    intro p hp
    have h1 := mem_sortStr.mp hp
    have h2 := (List.mem_filter.mp h1).2
    simpa using h2
  have hfilterq :
      (sortStr (g.orange_group.filter fun x => !moveQualifies env t x)).filter
        (moveQualifies env t) = [] := by
    refine List.filter_eq_nil_iff.mpr ?_
    intro a ha
    simp [horanges a ha]
  have hfilternq :
      (sortStr (g.orange_group.filter fun x => !moveQualifies env t x)).filter
        (fun p => !moveQualifies env t p) =
      sortStr (g.orange_group.filter fun x => !moveQualifies env t x) := by
    refine List.filter_eq_self.mpr ?_
    intro a ha
    simp [horanges a ha]
  rw [apply_auto_corrections_eq]
  dsimp only
  rw [hfilterq, hfilternq]
  have hsg :
      sortStr (sortStr (g.green_group ++ g.orange_group.filter (moveQualifies env t)) ++ []) =
        sortStr (g.green_group ++ g.orange_group.filter (moveQualifies env t)) := by
    rw [List.append_nil]
    exact sortStr_eq_self _ (sortStr_sorted _)
  have hso :
      sortStr (sortStr (g.orange_group.filter fun x => !moveQualifies env t x)) =
        sortStr (g.orange_group.filter fun x => !moveQualifies env t x) :=
    sortStr_eq_self _ (sortStr_sorted _)
  rw [hsg, hso]
  simp [sortStr_length, List.length_append]

/-- C5: for every artifact and threshold the corrector moves exactly the
readable orange members whose recomputed `avg_G - avg_R` is at least the
threshold, re-sorts both collections lexicographically by path, recomputes
both counts, and returns the number of items moved. -/
theorem C5_corrector_functional (env : Env) (t : ℚ) (g : Groups) :
    (apply_auto_corrections env t g).2 =
      (g.orange_group.filter (specQualifies env t)).length ∧
    List.Perm (apply_auto_corrections env t g).1.green_group
      (g.green_group ++ g.orange_group.filter (specQualifies env t)) ∧
    List.Sorted (· ≤ ·) (apply_auto_corrections env t g).1.green_group ∧
    List.Perm (apply_auto_corrections env t g).1.orange_group
      (g.orange_group.filter fun p => !specQualifies env t p) ∧
    List.Sorted (· ≤ ·) (apply_auto_corrections env t g).1.orange_group ∧
    (apply_auto_corrections env t g).1.stats.green_count =
      (apply_auto_corrections env t g).1.green_group.length ∧
    (apply_auto_corrections env t g).1.stats.orange_count =
      (apply_auto_corrections env t g).1.orange_group.length := by
  rw [apply_auto_corrections_eq, moveQualifies_eq_specQualifies]
  dsimp only
  refine ⟨rfl, sortStr_perm _, sortStr_sorted _, sortStr_perm _, sortStr_sorted _, ?_, ?_⟩
  · rw [sortStr_length, List.length_append]
  · rw [sortStr_length]

/-- Pinning `ceilSqrtQ` at a value by bracketing the argument. -/
theorem ceilSqrtQ_eq (q : ℚ) (n : ℕ) (hub : q ≤ (n:ℚ)^2)
    (hlb : ∀ m : ℕ, m < n → (m:ℚ)^2 < q) : ceilSqrtQ q = n := by
  have hle := ceilSqrtQ_min q n hub
  rcases Nat.lt_or_ge (ceilSqrtQ q) n with hlt | hge
  · exfalso
    have h1 := hlb _ hlt
    have h2 := ceilSqrtQ_le_sq q
    linarith
  · omega

/-- The portrait planner's initial column count at N = 1. -/
theorem portrait_cols0_one : ceilSqrtQ (((1:ℕ) : ℚ) * (availW A4 / availH A4)) = 1 := by
  have h : (((1:ℕ) : ℚ) * (availW A4 / availH A4)) = 7052/9803 := by
    norm_num [availW, availH, A4, mmPt, cmPt, inchPt, margin, title_height]
  rw [h]
  refine ceilSqrtQ_eq _ 1 (by norm_num) ?_
  intro m hm
  interval_cases m
  norm_num

/-- The landscape planner's initial column count at N = 1. -/
theorem landscape_cols0_one :
    ceilSqrtQ (((1:ℕ) : ℚ) * (availW landscapeA4 / availH landscapeA4)) = 2 := by
  have h : (((1:ℕ) : ℚ) * (availW landscapeA4 / availH landscapeA4)) = 10184/6671 := by
    norm_num [availW, availH, landscapeA4, mmPt, cmPt, inchPt, margin, title_height]
  rw [h]
  refine ceilSqrtQ_eq _ 2 (by norm_num) ?_
  intro m hm
  interval_cases m <;> norm_num

/-- The portrait grid for a single image is 1 by 1. -/
theorem portraitGrid_one : portraitGrid 1 = (1, 1) := by
  simp only [portraitGrid]
  rw [portrait_cols0_one, portraitAdjust]
  decide

/-- The landscape grid for a single image is 2 by 1. -/
theorem landscapeGrid_one : landscapeGrid 1 = (2, 1) := by
  simp only [landscapeGrid]
  rw [landscape_cols0_one, landscapeAdjust]
  decide

/-- C7 counterexample: for a single image, the landscape planner does not
produce a 1 by 1 grid (it produces 2 columns). -/
theorem C7_single_image_cx : (create_collage_pdf_landscape 1 1).cols ≠ 1 := by
  have h := (landscape_layout_grid 1 1).1
  rw [h, landscapeGrid_one]
  decide

/-- C7 amended: for a single image the portrait planner produces a 1 by 1
grid, the landscape planner produces a 2 by 1 grid (its adjustment only
widens), and in both modes exactly one output page is produced. -/
theorem C7_single_image_layout (aspect : ℚ) (p : String) :
    (create_collage_pdf_portrait 1 aspect).cols = 1 ∧
    (create_collage_pdf_portrait 1 aspect).rows = 1 ∧
    (create_collage_pdf_landscape 1 aspect).cols = 2 ∧
    (create_collage_pdf_landscape 1 aspect).rows = 1 ∧
    pdfPageCount [p] = 1 := by
  obtain ⟨hpc, hpr⟩ := portrait_layout_grid 1 aspect
  obtain ⟨hlc, hlr⟩ := landscape_layout_grid 1 aspect
  rw [hpc, hpr, hlc, hlr, portraitGrid_one, landscapeGrid_one]
  exact ⟨rfl, rfl, rfl, rfl, rfl⟩

/-- C6 counterexample: on a band averaging to 1.5 per channel the
classifier reports the truncated average 1, not the nearest integer 2. -/
theorem C6_rounding_cx :
    (get_bottom_color [(0,0,0), (3,3,3)]).2.1 ≠ round (avgR [(0,0,0), (3,3,3)]) := by
  have h1 : avgR [(0,0,0), (3,3,3)] = 3/2 := by
    simp [avgR, sumR]
  have h2 : (get_bottom_color [(0,0,0), (3,3,3)]).2.1 = pyInt (avgR [(0,0,0), (3,3,3)]) := rfl
  rw [h2, h1]
  have h3 : pyInt ((3:ℚ)/2) = 1 := by
    unfold pyInt
    rw [if_neg (by norm_num)]
    norm_num
  have h4 : round ((3:ℚ)/2) = 2 := by norm_num [round_eq]
  rw [h3, h4]
  decide

/-- C6 amended: for every nonempty band the classifier's output carries
the three channel averages truncated to integers (floored, the averages
being nonnegative), alongside the label. -/
theorem C6_truncated_averages (pxs : Img) (h : pxs ≠ []) :
    get_bottom_color pxs =
      (classifyRGB (avgR pxs) (avgG pxs) (avgB pxs),
       ⌊avgR pxs⌋, ⌊avgG pxs⌋, ⌊avgB pxs⌋) := by
  have hR : (0:ℚ) ≤ avgR pxs := by
    unfold avgR
    positivity
  have hG : (0:ℚ) ≤ avgG pxs := by
    unfold avgG
    positivity
  have hB : (0:ℚ) ≤ avgB pxs := by
    unfold avgB
    positivity
  unfold get_bottom_color pyInt
  rw [if_neg (not_lt.mpr hR), if_neg (not_lt.mpr hG), if_neg (not_lt.mpr hB)]

/-- Witness for the amended C6 on a one-pixel band. -/
theorem C6_truncated_averages_w :
    (([((10:ℕ), (20:ℕ), (30:ℕ))] : Img) ≠ []) ∧
    get_bottom_color [((10:ℕ), (20:ℕ), (30:ℕ))] =
      (classifyRGB (avgR [((10:ℕ), (20:ℕ), (30:ℕ))]) (avgG [((10:ℕ), (20:ℕ), (30:ℕ))])
        (avgB [((10:ℕ), (20:ℕ), (30:ℕ))]),
       ⌊avgR [((10:ℕ), (20:ℕ), (30:ℕ))]⌋, ⌊avgG [((10:ℕ), (20:ℕ), (30:ℕ))]⌋,
       ⌊avgB [((10:ℕ), (20:ℕ), (30:ℕ))]⌋) :=
  ⟨by decide, C6_truncated_averages _ (by decide)⟩

/-- C8 counterexample: with auto-correction requested, a batch whose
grouping artifact is unreadable when the corrector opens it aborts the
whole run, so a later healthy batch is not processed. -/
theorem C8_batch_isolation_cx :
    runBatches true [⟨true, 1, false⟩, ⟨true, 1, true⟩] = [BatchOutcome.raised] ∧
    BatchOutcome.processed ∉ runBatches true [⟨true, 1, false⟩, ⟨true, 1, true⟩] := by
  decide

/-- C8 amended: a batch skipped for a missing directory or an empty PNG
listing leaves the remaining batches to run, but an artifact-level failure
inside `process_year` (unreadable grouping artifact with correction
requested) aborts the whole remaining run. -/
theorem C8_batch_isolation (ac : Bool) (b : BatchEnv) (rest : List BatchEnv) :
    (b.dirFound = false →
      runBatches ac (b :: rest) = BatchOutcome.skippedMissingDir :: runBatches ac rest) ∧
    (b.dirFound = true → b.pngCount = 0 →
      runBatches ac (b :: rest) = BatchOutcome.skippedNoPngs :: runBatches ac rest) ∧
    (b.dirFound = true → b.pngCount ≠ 0 → processYearOk ac b = false →
      runBatches ac (b :: rest) = [BatchOutcome.raised]) := by
  refine ⟨?_, ?_, ?_⟩
  · intro h
    simp [runBatches, h]
  · intro h1 h2
    simp [runBatches, h1, h2]
  · intro h1 h2 h3
    simp [runBatches, h1, h2, h3]

/-- Witness for the amended C8 on concrete batch lists. -/
theorem C8_batch_isolation_w :
    (runBatches true [⟨false, 0, true⟩, ⟨true, 1, true⟩] =
      BatchOutcome.skippedMissingDir :: runBatches true [⟨true, 1, true⟩]) ∧
    (runBatches true [⟨true, 0, true⟩] = BatchOutcome.skippedNoPngs :: runBatches true []) ∧
    (runBatches true [⟨true, 2, false⟩, ⟨true, 1, true⟩] = [BatchOutcome.raised]) :=
  ⟨(C8_batch_isolation true ⟨false, 0, true⟩ [⟨true, 1, true⟩]).1 rfl,
   (C8_batch_isolation true ⟨true, 0, true⟩ []).2.1 rfl rfl,
   (C8_batch_isolation true ⟨true, 2, false⟩ [⟨true, 1, true⟩]).2.2 rfl (by decide) rfl⟩
